import Mathlib

set_option maxRecDepth 8000

/-!
Shallow embedding of the system-call dispatch and argument-marshaling layer
of `src/xv6-labs/kernel/syscall.c`, together with theorems settling the
frozen claims about it.

Machine integers are modelled as `Nat` (for C `uint64` values, reduced
modulo `2 ^ 64` wherever the C code can overflow) and `Int` (for C `int`
values, obtained from a 64-bit word by truncation to the low 32 bits,
interpreted in two's complement).  Fallible operations return `Option`.
User memory and the cross-space copy primitives (`copyin`, `copyinstr`,
which live in `kernel/vm.c`, outside `src/`) are modelled from the spec as
a partial byte map `Nat → Option Nat`, where `none` marks an inaccessible
byte (unmapped or otherwise faulting page).
-/

namespace Xv6

/-- Conversion of a 64-bit word (`uint64`) to a C `int`: keep the low 32
bits and interpret them in two's complement, as in `num = p->trapframe->a7`
and `int return_val = syscalls[num]()` in `syscall.c`. -/
def toInt32 (n : Nat) : Int :=
  if n % 2 ^ 32 < 2 ^ 31 then ((n % 2 ^ 32 : Nat) : Int)
  else ((n % 2 ^ 32 : Nat) : Int) - 2 ^ 32

/-- Conversion of a C `int` back to a `uint64` (sign extension followed by
reinterpretation), as in `p->trapframe->a0 = return_val`. -/
def uint64OfInt (i : Int) : Nat :=
  (i % (2 ^ 64 : Int)).toNat

/-- Modelled from the spec: `copyin` (the cross-space copy primitive in
`kernel/vm.c`, not under `src/`) reading `len` consecutive bytes of user
memory starting at `addr`; it faults (returns `none`) as soon as it meets
an inaccessible byte. -/
def copyin (mem : Nat → Option Nat) (addr : Nat) : Nat → Option (List Nat)
  | 0 => some []
  | l + 1 =>
    (mem addr).bind (fun b => (copyin mem (addr + 1) l).map (fun bs => b :: bs))

/-- Little-endian value of a list of bytes, the `uint64` that `copyin`
deposits in the out-parameter `*ip` of `fetchaddr`. -/
def leWord (bs : List Nat) : Nat :=
  bs.foldr (fun b acc => b + 256 * acc) 0

/-- Embedding of `fetchaddr` (`syscall.c`, lines 18-27): fetch the `uint64`
at `addr` from the current process, whose size bound is `sz` and whose
address space is `pagetable`.  The C guard is
`addr >= p->sz || addr+sizeof(uint64) > p->sz`, where `addr + 8` is
computed in `uint64` arithmetic, i.e. modulo `2 ^ 64`. -/
def fetchaddr (sz : Nat) (pagetable : Nat → Option Nat) (addr : Nat) : Option Nat :=
  if sz ≤ addr ∨ sz < (addr + 8) % 2 ^ 64 then none
  else (copyin pagetable addr 8).map leWord

/-- Modelled from the spec: `copyinstr` (`kernel/vm.c`, not under `src/`),
the bounded cross-space string copy used by `fetchstr`: it walks user
memory from `addr`, copying at most `max` bytes, stops at a NUL
terminator, and fails when it meets an inaccessible byte or when no NUL
occurs within `max` bytes.  The result is the list of bytes strictly
before the NUL. -/
def copyinstr (mem : Nat → Option Nat) (addr : Nat) : Nat → Option (List Nat)
  | 0 => none
  | m + 1 =>
    (mem addr).bind (fun b =>
      if b = 0 then some [] else (copyinstr mem (addr + 1) m).map (fun s => b :: s))

/-- Modelled from the spec: `strlen` (`kernel/string.c`, not under
`src/`), the number of bytes before the first NUL. -/
def strlen : List Nat → Nat
  | [] => 0
  | b :: t => if b = 0 then 0 else strlen t + 1

/-- Embedding of `fetchstr` (`syscall.c`, lines 31-38): copy the
NUL-terminated string at `addr` with `copyinstr`, then return the buffer
together with `strlen(buf)`, or `none` on error. -/
def fetchstr (pagetable : Nat → Option Nat) (addr : Nat) (max : Nat) :
    Option (List Nat × Nat) :=
  (copyinstr pagetable addr max).map (fun s => (s, strlen s))

/-- Register bank saved at trap entry (`struct trapframe`): the six
argument slots `a0`-`a5`, with `a0` doubling as the return-value slot, and
the identifier slot `a7`. -/
structure TrapFrame where
  a0 : Nat
  a1 : Nat
  a2 : Nat
  a3 : Nat
  a4 : Nat
  a5 : Nat
  a7 : Nat
deriving DecidableEq

/-- Embedding of `argraw` (`syscall.c`, lines 40-60): return the `n`-th
argument register; the `switch` covers `0`-`5` and any other index reaches
`panic("argraw")`, modelled as `none`. -/
def argraw (tf : TrapFrame) (n : Int) : Option Nat :=
  if n = 0 then some tf.a0
  else if n = 1 then some tf.a1
  else if n = 2 then some tf.a2
  else if n = 3 then some tf.a3
  else if n = 4 then some tf.a4
  else if n = 5 then some tf.a5
  else none

/-- The slice of `struct proc` that `syscall.c` reads: the trapframe, the
address-space size bound `sz` and page table (used by `fetchaddr` and
`fetchstr`), and the `pid`, display `name` and `trace_mask` used by the
dispatcher's diagnostics and tracing. -/
structure Proc where
  trapframe : TrapFrame
  pagetable : Nat → Option Nat
  sz : Nat
  pid : Int
  name : String
  trace_mask : Nat

/-- Modelled from the spec: the syscall identifier values come from
`kernel/syscall.h`, which is included by `syscall.c` but is not under
`src/`; per the spec they are dense small positive integers with
identifier 0 reserved, in the registration order of the dispatch table
(`fork` = 1 through `sysinfo` = 23), matching the order of
`syscall_names`. -/
def SYS_fork : Nat := 1

/-- Identifier of `exit` (see `SYS_fork`). -/
def SYS_exit : Nat := 2

/-- Identifier of `wait` (see `SYS_fork`). -/
def SYS_wait : Nat := 3

/-- Identifier of `pipe` (see `SYS_fork`). -/
def SYS_pipe : Nat := 4

/-- Identifier of `read` (see `SYS_fork`). -/
def SYS_read : Nat := 5

/-- Identifier of `kill` (see `SYS_fork`). -/
def SYS_kill : Nat := 6

/-- Identifier of `exec` (see `SYS_fork`). -/
def SYS_exec : Nat := 7

/-- Identifier of `fstat` (see `SYS_fork`). -/
def SYS_fstat : Nat := 8

/-- Identifier of `chdir` (see `SYS_fork`). -/
def SYS_chdir : Nat := 9

/-- Identifier of `dup` (see `SYS_fork`). -/
def SYS_dup : Nat := 10

/-- Identifier of `getpid` (see `SYS_fork`). -/
def SYS_getpid : Nat := 11

/-- Identifier of `sbrk` (see `SYS_fork`). -/
def SYS_sbrk : Nat := 12

/-- Identifier of `sleep` (see `SYS_fork`). -/
def SYS_sleep : Nat := 13

/-- Identifier of `uptime` (see `SYS_fork`). -/
def SYS_uptime : Nat := 14

/-- Identifier of `open` (see `SYS_fork`). -/
def SYS_open : Nat := 15

/-- Identifier of `write` (see `SYS_fork`). -/
def SYS_write : Nat := 16

/-- Identifier of `mknod` (see `SYS_fork`). -/
def SYS_mknod : Nat := 17

/-- Identifier of `unlink` (see `SYS_fork`). -/
def SYS_unlink : Nat := 18

/-- Identifier of `link` (see `SYS_fork`). -/
def SYS_link : Nat := 19

/-- Identifier of `mkdir` (see `SYS_fork`). -/
def SYS_mkdir : Nat := 20

/-- Identifier of `close` (see `SYS_fork`). -/
def SYS_close : Nat := 21

/-- Identifier of `trace` (see `SYS_fork`). -/
def SYS_trace : Nat := 22

/-- Identifier of `sysinfo` (see `SYS_fork`). -/
def SYS_sysinfo : Nat := 23

/-- Size of the `syscalls[]` dispatch array: the largest designated
initializer is `[SYS_sysinfo] = [23]`, so `NELEM(syscalls) = 24`. -/
def NELEM_syscalls : Int := 24

/-- The `syscall_names` table of `syscall.c` (lines 11-15): display names
indexed by `num - 1`. -/
def syscall_names : List String :=
  ["fork", "exit", "wait", "pipe", "read", "kill", "exec", "fstat", "chdir",
   "dup", "getpid", "sbrk", "sleep", "uptime", "open", "write", "mknod", "unlink",
   "link", "mkdir", "close", "trace", "sysinfo"]

/-- Display name used by the trace line: `syscall_names[num - 1]`. -/
def syscallName (num : Int) : String :=
  syscall_names.getD (num.toNat - 1) ""

/-- One rendered argument of a trace line, abstracting the `printf`
conversion used for it: `uint` for `%lu`, `ptr` for `%p`, `str` for a
`%s` dereference that produced the given string, and `nullLit` for the
literal text "NULL". -/
inductive RArg where
  | uint : Nat → RArg
  | ptr : Nat → RArg
  | str : String → RArg
  | nullLit : RArg
deriving DecidableEq

/-- One line of console output produced by the dispatcher: either the
unknown-identifier diagnostic (already formatted, as printed by
`printf("%d %s: unknown sys call %d\n", ...)`), or a trace line of the
form `"<pid>: syscall <name>(<args>) -> <result>"`, carried as the pid,
the display name, the rendered arguments and the `%d`-rendered return
value. -/
inductive OutLine where
  | diag : String → OutLine
  | trace : Int → String → List RArg → Int → OutLine
deriving DecidableEq

/-- A registered handler: the `extern uint64 sys_*(void)` functions are
outside `src/`, so a handler is an arbitrary function from the process
state to a `uint64` result plus the (possibly mutated) process state. -/
def Handler : Type := Proc → Nat × Proc

/-- The `args_list[]` captured at the top of `syscall()` (lines 173-176),
before the handler is invoked: the six argument registers at trap
entry. -/
def argsList (p : Proc) : List Nat :=
  [p.trapframe.a0, p.trapframe.a1, p.trapframe.a2,
   p.trapframe.a3, p.trapframe.a4, p.trapframe.a5]

/-- Write a value into the return-value slot `a0` of a process's
trapframe, leaving every other field of the process and of the trapframe
unchanged. -/
def writeA0 (p : Proc) (v : Nat) : Proc :=
  { p with trapframe := { p.trapframe with a0 := v } }

/-- Replace the identifier slot `a7`, leaving everything else unchanged. -/
def setA7 (p : Proc) (v : Nat) : Proc :=
  { p with trapframe := { p.trapframe with a7 := v } }

/-- Embedding of the argument-rendering `switch (num)` of the trace block
(lines 186-242).  `args` are the captured raw words; `readStr` is the
dereference that `printf`'s `%s` performs on a raw address (modelled from
the spec, since the console formatter is an external collaborator): it
yields the NUL-terminated string at that address, or `none` when the
dereference faults.  The result is `none` exactly when a `%s` case
dereferences an unreadable address — the C code passes the raw word to
`%s` unconditionally, so such a fault propagates out of the trace path. -/
def renderArgs (num : Nat) (args : List Nat) (readStr : Nat → Option String) :
    Option (List RArg) :=
  let a0 := args.getD 0 0
  let a1 := args.getD 1 0
  let a2 := args.getD 2 0
  if num = SYS_exit ∨ num = SYS_kill ∨ num = SYS_dup ∨ num = SYS_sbrk ∨
      num = SYS_sleep ∨ num = SYS_close ∨ num = SYS_trace then
    some [RArg.uint a0]
  else if num = SYS_wait ∨ num = SYS_pipe then
    some [RArg.ptr a0]
  else if num = SYS_read ∨ num = SYS_write then
    some [RArg.uint a0, RArg.ptr a1, RArg.uint a2]
  else if num = SYS_exec then
    some [if a0 = 0 then RArg.nullLit else RArg.ptr a0,
          if a1 = 0 then RArg.nullLit else RArg.ptr a1]
  else if num = SYS_fstat then
    some [RArg.uint a0, RArg.ptr a1]
  else if num = SYS_chdir ∨ num = SYS_unlink ∨ num = SYS_mkdir then
    (readStr a0).map (fun s => [RArg.str s])
  else if num = SYS_open then
    some [if a0 = 0 then RArg.nullLit else RArg.ptr a0, RArg.uint a1]
  else if num = SYS_mknod then
    (readStr a0).map (fun s => [RArg.str s, RArg.uint a1, RArg.uint a2])
  else if num = SYS_link then
    (readStr a0).bind (fun s0 => (readStr a1).map (fun s1 => [RArg.str s0, RArg.str s1]))
  else
    some []

/-- Outcome of one run of `syscall()`: the final process state (`none`
models a kernel fault inside the trace `printf`, after which control never
returns and `a0` is never written), the list of complete console lines
emitted, and the identifiers of the handlers invoked, in order. -/
structure DispatchResult where
  proc? : Option Proc
  output : List OutLine
  invoked : List Int

/-- The known-identifier path of `syscall()` (lines 181-245): invoke the
handler, capture its return value as a C `int` (`int return_val = ...`),
optionally emit one trace line — reading `trace_mask` and `pid` from the
post-handler process state, as the C code does, but rendering the argument
words captured at trap entry — and finally write the captured value,
sign-extended, into `a0` of the post-handler trapframe. -/
def dispatchKnown (readStr : Nat → Option String) (p : Proc) (num : Int) (f : Handler) :
    DispatchResult :=
  let r := f p
  let return_val : Int := toInt32 r.1
  if r.2.trace_mask.testBit num.toNat then
    match renderArgs num.toNat (argsList p) readStr with
    | some rargs =>
        { proc? := some (writeA0 r.2 (uint64OfInt return_val)),
          output := [OutLine.trace r.2.pid (syscallName num) rargs return_val],
          invoked := [num] }
    | none => { proc? := none, output := [], invoked := [num] }
  else
    { proc? := some (writeA0 r.2 (uint64OfInt return_val)),
      output := [], invoked := [num] }

/-- The unknown-identifier path of `syscall()` (lines 246-249): print the
diagnostic `"%d %s: unknown sys call %d\n"` and set `a0` to `-1`. -/
def dispatchUnknown (p : Proc) (num : Int) : DispatchResult :=
  { proc? := some (writeA0 p (uint64OfInt (-1))),
    output := [OutLine.diag
      (toString p.pid ++ " " ++ p.name ++ ": unknown sys call " ++ toString num)],
    invoked := [] }

/-- Embedding of `syscall()` (lines 167-250).  `handlers` is the contents
of the `syscalls[]` dispatch array (the `sys_*` handler bodies are
external); an entry is `none` for an unregistered slot, as for index 0 of
the statically initialized array.  `num` is the identifier slot `a7` read
as a C `int`, and the guard is `num > 0 && num < NELEM(syscalls) &&
syscalls[num]`. -/
def syscall (handlers : Nat → Option Handler) (readStr : Nat → Option String)
    (p : Proc) : DispatchResult :=
  if 0 < toInt32 p.trapframe.a7 ∧ toInt32 p.trapframe.a7 < NELEM_syscalls then
    match handlers (toInt32 p.trapframe.a7).toNat with
    | some f => dispatchKnown readStr p (toInt32 p.trapframe.a7) f
    | none => dispatchUnknown p (toInt32 p.trapframe.a7)
  else
    dispatchUnknown p (toInt32 p.trapframe.a7)

/-! Concrete material used by witnesses and counterexamples. -/

/-- Totally inaccessible user memory, used as a concrete page table. -/
def wmem0 : Nat → Option Nat := fun _ => none

/-- Concrete memory holding the two-byte string "AA" at address 0,
NUL-terminated, with everything else inaccessible. -/
def wmemStr : Nat → Option Nat :=
  fun a => if a < 2 then some 65 else if a = 2 then some 0 else none

/-- A `%s` dereference that always faults: no address holds a readable
NUL-terminated string. -/
def wreadStr : Nat → Option String := fun _ => none

/-- Concrete trapframe with the given argument registers and identifier
slot. -/
def wtfOf (x0 x1 x2 a7v : Nat) : TrapFrame :=
  { a0 := x0, a1 := x1, a2 := x2, a3 := 0, a4 := 0, a5 := 0, a7 := a7v }

/-- Concrete trapframe used by the marshaling witnesses. -/
def wtf (a7v : Nat) : TrapFrame := wtfOf 10 11 12 a7v

/-- Concrete process with the given trapframe and trace mask. -/
def wprocOf (tf : TrapFrame) (mask : Nat) : Proc :=
  { trapframe := tf, pagetable := wmem0, sz := 4096, pid := 4, name := "sh",
    trace_mask := mask }

/-- A handler that returns 7 and leaves the process unchanged. -/
def idHandler7 : Handler := fun q => (7, q)

/-- A handler table with `idHandler7` registered at every identifier
1-23, slot 0 unregistered, matching the static shape of `syscalls[]`. -/
def whandlers : Nat → Option Handler :=
  fun n => if 1 ≤ n ∧ n ≤ 23 then some idHandler7 else none

/-- A handler whose `uint64` return value does not fit in a signed 32-bit
integer. -/
def bigHandler : Handler := fun q => (2 ^ 31, q)

/-- A handler table with `bigHandler` registered at identifier 1. -/
def bigHandlers : Nat → Option Handler :=
  fun n => if n = 1 then some bigHandler else none

/-! Helper lemmas about the bounded string copy. -/

/-- Result of `copyinstr` depends only on the `max` bytes of user memory
starting at `addr`. -/
theorem copyinstr_frame (max : Nat) : ∀ (addr : Nat) (mem mem2 : Nat → Option Nat),
    (∀ i, i < max → mem (addr + i) = mem2 (addr + i)) →
    copyinstr mem addr max = copyinstr mem2 addr max := by
  induction max with
  | zero => intro addr mem mem2 _; rfl
  | succ m ih =>
    intro addr mem mem2 h
    have h0 : mem addr = mem2 addr := by simpa using h 0 (Nat.succ_pos m)
    have hrec : copyinstr mem (addr + 1) m = copyinstr mem2 (addr + 1) m := by
      apply ih
      intro i hi
      rw [Nat.add_assoc, Nat.add_comm 1 i]
      exact h (i + 1) (by omega)
    rw [copyinstr, copyinstr, h0, hrec]

/-- When no NUL terminator occurs within the first `max` bytes,
`copyinstr` fails. -/
theorem copyinstr_none_of_noNul (max : Nat) : ∀ (addr : Nat) (mem : Nat → Option Nat),
    (∀ i, i < max → mem (addr + i) ≠ some 0) →
    copyinstr mem addr max = none := by
  induction max with
  | zero => intro addr mem _; rfl
  | succ m ih =>
    intro addr mem h
    rw [copyinstr]
    cases hm : mem addr with
    | none => rfl
    | some b =>
      have hb : b ≠ 0 := by
        intro hb0
        exact h 0 (Nat.succ_pos m) (by simpa [hb0] using hm)
      have hrec : copyinstr mem (addr + 1) m = none := by
        apply ih
        intro i hi
        rw [Nat.add_assoc, Nat.add_comm 1 i]
        exact h (i + 1) (by omega)
      simp [hb, hrec]

/-- When an inaccessible byte is met before any NUL terminator,
`copyinstr` fails. -/
theorem copyinstr_none_of_fault (k : Nat) : ∀ (max addr : Nat) (mem : Nat → Option Nat),
    k < max → mem (addr + k) = none → (∀ i, i < k → mem (addr + i) ≠ some 0) →
    copyinstr mem addr max = none := by
  induction k with
  | zero =>
    intro max addr mem hk hnone _
    cases max with
    | zero => omega
    | succ m =>
      rw [copyinstr]
      have hm : mem addr = none := by simpa using hnone
      rw [hm]
      rfl
  | succ j ih =>
    intro max addr mem hk hnone h
    cases max with
    | zero => omega
    | succ m =>
      rw [copyinstr]
      cases hm : mem addr with
      | none => rfl
      | some b =>
        have hb : b ≠ 0 := by
          intro hb0
          exact h 0 (Nat.succ_pos j) (by simpa [hb0] using hm)
        have hrec : copyinstr mem (addr + 1) m = none := by
          apply ih m (addr + 1) mem (by omega)
          · rw [Nat.add_assoc, Nat.add_comm 1 j]; exact hnone
          · intro i hi
            rw [Nat.add_assoc, Nat.add_comm 1 i]
            exact h (i + 1) (by omega)
        simp [hb, hrec]

/-- Characterization of a successful `copyinstr`: the returned bytes are
exactly the bytes of memory before the first NUL, that NUL lies within the
`max`-byte window, and no returned byte is NUL. -/
theorem copyinstr_some (max : Nat) : ∀ (addr : Nat) (mem : Nat → Option Nat) (s : List Nat),
    copyinstr mem addr max = some s →
    s.length < max ∧
      (∀ i, i < s.length → mem (addr + i) = some (s.getD i 0) ∧ s.getD i 0 ≠ 0) ∧
      mem (addr + s.length) = some 0 := by
  induction max with
  | zero => intro addr mem s h; simp [copyinstr] at h
  | succ m ih =>
    intro addr mem s h
    rw [copyinstr] at h
    cases hm : mem addr with
    | none => rw [hm] at h; simp at h
    | some b =>
      rw [hm] at h
      simp only [Option.some_bind] at h
      by_cases hb : b = 0
      · rw [if_pos hb] at h
        have hs : s = [] := by
          injection h with h'
          exact h'.symm
        subst hs
        refine ⟨Nat.succ_pos m, ?_, ?_⟩
        · intro i hi; simp at hi
        · simpa [hb] using hm
      · rw [if_neg hb] at h
        rcases Option.map_eq_some'.mp h with ⟨t, ht, hst⟩
        rcases ih (addr + 1) mem t ht with ⟨hlen, hmem, hnul⟩
        subst hst
        refine ⟨by simpa using Nat.succ_lt_succ hlen, ?_, ?_⟩
        · intro i hi
          cases i with
          | zero => exact ⟨by simpa using hm, by simpa using hb⟩
          | succ j =>
            have hj : j < t.length := by simpa using hi
            have hh := hmem j hj
            rw [Nat.add_assoc, Nat.add_comm 1 j] at hh
            simpa using hh
        · have hh := hnul
          rw [Nat.add_assoc, Nat.add_comm 1 t.length] at hh
          simpa using hh

/-- Length of a list with no NUL byte, as measured by `strlen`. -/
theorem strlen_eq_length (s : List Nat) (h : ∀ i, i < s.length → s.getD i 0 ≠ 0) :
    strlen s = s.length := by
  induction s with
  | nil => rfl
  | cons b t ih =>
    have hb : b ≠ 0 := by simpa using h 0 (Nat.succ_pos t.length)
    rw [strlen, if_neg hb,
      ih (fun i hi => by simpa using h (i + 1) (by simpa using Nat.succ_lt_succ hi))]
    rfl

/-- A `uint64` value below `2 ^ 31` survives the round trip through
`int return_val` unchanged. -/
theorem uint64OfInt_toInt32_of_lt (v : Nat) (hv : v < 2 ^ 31) :
    uint64OfInt (toInt32 v) = v := by
  rw [toInt32, Nat.mod_eq_of_lt (by omega), if_pos hv, uint64OfInt]
  omega

/-! Structural lemmas about the dispatcher. -/

/-- On a registered identifier, `syscall` follows the known path. -/
theorem syscall_eq_known (handlers : Nat → Option Handler) (readStr : Nat → Option String)
    (p : Proc) (f : Handler)
    (hlo : 0 < toInt32 p.trapframe.a7) (hhi : toInt32 p.trapframe.a7 < NELEM_syscalls)
    (hreg : handlers (toInt32 p.trapframe.a7).toNat = some f) :
    syscall handlers readStr p = dispatchKnown readStr p (toInt32 p.trapframe.a7) f := by
  rw [syscall, if_pos ⟨hlo, hhi⟩, hreg]

/-- On an identifier that is out of range or unregistered, `syscall`
follows the unknown path. -/
theorem syscall_eq_unknown (handlers : Nat → Option Handler) (readStr : Nat → Option String)
    (p : Proc)
    (h : toInt32 p.trapframe.a7 ≤ 0 ∨ NELEM_syscalls ≤ toInt32 p.trapframe.a7 ∨
      handlers (toInt32 p.trapframe.a7).toNat = none) :
    syscall handlers readStr p = dispatchUnknown p (toInt32 p.trapframe.a7) := by
  rw [syscall]
  by_cases hc : 0 < toInt32 p.trapframe.a7 ∧ toInt32 p.trapframe.a7 < NELEM_syscalls
  · rw [if_pos hc]
    rcases h with h | h | h
    · omega
    · omega
    · rw [h]
  · rw [if_neg hc]

/-- The known path invokes the handler exactly once. -/
theorem dispatchKnown_invoked (readStr : Nat → Option String) (p : Proc) (num : Int)
    (f : Handler) : (dispatchKnown readStr p num f).invoked = [num] := by
  rw [dispatchKnown]
  by_cases hb : (f p).2.trace_mask.testBit num.toNat
  · rw [if_pos hb]
    cases renderArgs num.toNat (argsList p) readStr with
    | none => rfl
    | some rargs => rfl
  · rw [if_neg hb]

/-- The known path with tracing disabled: no output, result written. -/
theorem dispatchKnown_no_trace (readStr : Nat → Option String) (p : Proc) (num : Int)
    (f : Handler) (hb : (f p).2.trace_mask.testBit num.toNat = false) :
    dispatchKnown readStr p num f =
      { proc? := some (writeA0 (f p).2 (uint64OfInt (toInt32 (f p).1))),
        output := [], invoked := [num] } := by
  rw [dispatchKnown, if_neg (by rw [hb]; exact Bool.false_ne_true)]

/-- The known path with tracing enabled and a successful rendering: one
trace line, result written. -/
theorem dispatchKnown_trace (readStr : Nat → Option String) (p : Proc) (num : Int)
    (f : Handler) (rargs : List RArg)
    (hb : (f p).2.trace_mask.testBit num.toNat = true)
    (hr : renderArgs num.toNat (argsList p) readStr = some rargs) :
    dispatchKnown readStr p num f =
      { proc? := some (writeA0 (f p).2 (uint64OfInt (toInt32 (f p).1))),
        output := [OutLine.trace (f p).2.pid (syscallName num) rargs (toInt32 (f p).1)],
        invoked := [num] } := by
  rw [dispatchKnown, if_pos hb, hr]

/-- The known path with tracing enabled and a faulting rendering: the
trace `printf` faults, no complete line is emitted, `a0` is never
written. -/
theorem dispatchKnown_fault (readStr : Nat → Option String) (p : Proc) (num : Int)
    (f : Handler)
    (hb : (f p).2.trace_mask.testBit num.toNat = true)
    (hr : renderArgs num.toNat (argsList p) readStr = none) :
    dispatchKnown readStr p num f = { proc? := none, output := [], invoked := [num] } := by
  rw [dispatchKnown, if_pos hb, hr]

/-- Characterization of the handler invocations of one dispatch. -/
theorem syscall_invoked (handlers : Nat → Option Handler) (readStr : Nat → Option String)
    (p : Proc) :
    (syscall handlers readStr p).invoked =
      if 0 < toInt32 p.trapframe.a7 ∧ toInt32 p.trapframe.a7 < NELEM_syscalls ∧
          (handlers (toInt32 p.trapframe.a7).toNat).isSome = true
      then [toInt32 p.trapframe.a7] else [] := by
  by_cases hc : 0 < toInt32 p.trapframe.a7 ∧ toInt32 p.trapframe.a7 < NELEM_syscalls
  · cases hh : handlers (toInt32 p.trapframe.a7).toNat with
    | some f =>
      rw [syscall_eq_known handlers readStr p f hc.1 hc.2 hh, dispatchKnown_invoked,
        if_pos ⟨hc.1, hc.2, by simp [hh]⟩]
    | none =>
      rw [syscall_eq_unknown handlers readStr p (Or.inr (Or.inr hh)),
        if_neg (by simp [hh])]
      rfl
  · have h' : toInt32 p.trapframe.a7 ≤ 0 ∨ NELEM_syscalls ≤ toInt32 p.trapframe.a7 := by
      omega
    rcases h' with h' | h'
    · rw [syscall_eq_unknown handlers readStr p (Or.inl h'),
        if_neg (fun hcond => hc ⟨hcond.1, hcond.2.1⟩)]
      rfl
    · rw [syscall_eq_unknown handlers readStr p (Or.inr (Or.inl h')),
        if_neg (fun hcond => hc ⟨hcond.1, hcond.2.1⟩)]
      rfl

/-! Claim theorems. -/

/-- C6: for all addresses and all max lengths, `fetchstr` (1) never reads
more than `max` bytes of user memory — its result depends only on the
`max`-byte window starting at the address; (2) fails with the error
sentinel when no NUL terminator occurs within `max` bytes, or when an
inaccessible byte is met before the terminator; and (3) on success returns
the fetched string together with its length excluding the NUL terminator:
the returned count equals the number of bytes strictly before the first
NUL, which lies inside the window. -/
theorem fetchstr_spec :
    (∀ (mem mem2 : Nat → Option Nat) (addr max : Nat),
        (∀ i, i < max → mem (addr + i) = mem2 (addr + i)) →
        fetchstr mem addr max = fetchstr mem2 addr max) ∧
    (∀ (mem : Nat → Option Nat) (addr max : Nat),
        ((∀ i, i < max → mem (addr + i) ≠ some 0) ∨
          (∃ k, k < max ∧ mem (addr + k) = none ∧ ∀ i, i < k → mem (addr + i) ≠ some 0)) →
        fetchstr mem addr max = none) ∧
    (∀ (mem : Nat → Option Nat) (addr max : Nat) (s : List Nat) (n : Nat),
        fetchstr mem addr max = some (s, n) →
        n = s.length ∧ s.length < max ∧
          (∀ i, i < s.length → mem (addr + i) = some (s.getD i 0) ∧ s.getD i 0 ≠ 0) ∧
          mem (addr + s.length) = some 0) := by
  refine ⟨?_, ?_, ?_⟩
  · intro mem mem2 addr max h
    rw [fetchstr, fetchstr, copyinstr_frame max addr mem mem2 h]
  · intro mem addr max h
    rcases h with h | ⟨k, hk, hnone, hpre⟩
    · rw [fetchstr, copyinstr_none_of_noNul max addr mem h]
      rfl
    · rw [fetchstr, copyinstr_none_of_fault k max addr mem hk hnone hpre]
      rfl
  · intro mem addr max s n h
    rw [fetchstr] at h
    rcases Option.map_eq_some'.mp h with ⟨t, ht, hts⟩
    injection hts with h1 h2
    subst h1
    subst h2
    rcases copyinstr_some max addr mem t ht with ⟨hlen, hmem, hnul⟩
    exact ⟨strlen_eq_length t (fun i hi => (hmem i hi).2), hlen, hmem, hnul⟩

/-- Witness for C6: evaluating `fetchstr` on a concrete two-byte string
with `max = 10` and applying `fetchstr_spec`. -/
theorem fetchstr_spec_witness :
    2 = List.length ([65, 65] : List Nat) ∧ List.length ([65, 65] : List Nat) < 10 ∧
      (∀ i, i < List.length ([65, 65] : List Nat) →
        wmemStr (0 + i) = some (([65, 65] : List Nat).getD i 0) ∧
          ([65, 65] : List Nat).getD i 0 ≠ 0) ∧
      wmemStr (0 + List.length ([65, 65] : List Nat)) = some 0 :=
  fetchstr_spec.2.2 wmemStr 0 10 [65, 65] 2 (by decide)

/-- C3 (amended): for every 64-bit address and every process size bound
that itself leaves room for an 8-byte word below `2 ^ 64` (that is,
`sz + 8 ≤ 2 ^ 64`), `fetchaddr` fails with the error sentinel whenever
`addr ≥ sz` or `addr + 8 > sz` (exact arithmetic), for every memory — that
is, without the cross-space copy being attempted — and in particular every
address within 8 of the maximum representable 64-bit value is rejected.
The restriction on the bound is forced by the code: for `sz > 2 ^ 64 - 8`
the wrapped comparison `addr + 8 > sz` can pass for a near-maximal address
(see `fetchaddr_overflow_cex`). -/
theorem fetchaddr_bounds (sz addr : Nat) (hsz : sz + 8 ≤ 2 ^ 64) :
    ((sz ≤ addr ∨ sz < addr + 8) →
      ∀ pagetable, fetchaddr sz pagetable addr = none) ∧
    (2 ^ 64 - 8 ≤ addr → ∀ pagetable, fetchaddr sz pagetable addr = none) := by
  constructor
  · intro h pagetable
    rw [fetchaddr, if_pos (by omega)]
  · intro h pagetable
    rw [fetchaddr, if_pos (by omega)]

/-- Witness for C3: a concrete in-range bound with an address crossing it;
`fetchaddr` rejects it on the all-inaccessible memory without attempting
the copy. -/
theorem fetchaddr_bounds_witness :
    4096 + 8 ≤ 2 ^ 64 ∧ fetchaddr 4096 wmem0 4090 = none :=
  ⟨by norm_num, (fetchaddr_bounds 4096 4090 (by norm_num)).1 (by norm_num) wmem0⟩

/-- Counterexample for C3 as stated: with the (unrealistically large but
representable) bound `sz = 2 ^ 64 - 1` and the address `2 ^ 64 - 4`, which
is within 8 of the maximum representable value and satisfies
`addr + 8 > sz` in exact arithmetic, the guard of `fetchaddr` passes —
`addr + 8` wraps to `4` — and the copy is attempted and succeeds, so the
claimed rejection does not happen. -/
theorem fetchaddr_overflow_cex :
    fetchaddr (2 ^ 64 - 1) (fun _ => some 0) (2 ^ 64 - 4) = some 0 ∧
      2 ^ 64 - 1 < (2 ^ 64 - 4) + 8 ∧ 2 ^ 64 - 8 ≤ 2 ^ 64 - 4 :=
  ⟨by decide, by norm_num, by norm_num⟩

/-- C8: `argraw` is total on slot indices 0-5, returning the corresponding
argument register `a0`-`a5` without validation or failure, and every index
outside 0-5 reaches the fatal `panic("argraw")` branch, modelled as
`none`; hence under the caller contract (indices 0-5 only) the fatal
branch is unreachable. -/
theorem argraw_spec :
    (∀ tf : TrapFrame,
        argraw tf 0 = some tf.a0 ∧ argraw tf 1 = some tf.a1 ∧
        argraw tf 2 = some tf.a2 ∧ argraw tf 3 = some tf.a3 ∧
        argraw tf 4 = some tf.a4 ∧ argraw tf 5 = some tf.a5) ∧
    (∀ (tf : TrapFrame) (n : Int), 0 ≤ n → n ≤ 5 → (argraw tf n).isSome = true) ∧
    (∀ (tf : TrapFrame) (n : Int), n < 0 ∨ 5 < n → argraw tf n = none) := by
  refine ⟨?_, ?_, ?_⟩
  · intro tf
    exact ⟨rfl, rfl, rfl, rfl, rfl, rfl⟩
  · intro tf n h0 h5
    have h : n = 0 ∨ n = 1 ∨ n = 2 ∨ n = 3 ∨ n = 4 ∨ n = 5 := by omega
    rcases h with h | h | h | h | h | h <;> subst h <;> rfl
  · intro tf n h
    rw [argraw, if_neg (by omega), if_neg (by omega), if_neg (by omega),
      if_neg (by omega), if_neg (by omega), if_neg (by omega)]

/-- Witness for C8: `argraw` evaluated at concrete in-range and
out-of-range indices via `argraw_spec`. -/
theorem argraw_spec_witness :
    (argraw (wtf 0) 4).isSome = true ∧ argraw (wtf 0) 6 = none :=
  ⟨argraw_spec.2.1 (wtf 0) 4 (by decide) (by decide),
   argraw_spec.2.2 (wtf 0) 6 (Or.inr (by decide))⟩

/-- C1 (amended): for every identifier with a registered handler, one
dispatch invokes exactly that handler exactly once, and — provided the
optional trace rendering does not fault — writes into the return-value
slot the handler's return value as captured by `int return_val`, that is,
truncated to its low 32 bits and sign-extended back to 64 bits; this is
the value verbatim exactly when it fits in a signed 32-bit integer (shown
here for values below `2 ^ 31`), but not in general (see
`syscall_return_truncated_cex`). -/
theorem syscall_registered_dispatch (handlers : Nat → Option Handler)
    (readStr : Nat → Option String) (p : Proc) (f : Handler)
    (hlo : 0 < toInt32 p.trapframe.a7) (hhi : toInt32 p.trapframe.a7 < NELEM_syscalls)
    (hreg : handlers (toInt32 p.trapframe.a7).toNat = some f) :
    (syscall handlers readStr p).invoked = [toInt32 p.trapframe.a7] ∧
    (((f p).2.trace_mask.testBit (toInt32 p.trapframe.a7).toNat = false ∨
        (renderArgs (toInt32 p.trapframe.a7).toNat (argsList p) readStr).isSome = true) →
      (syscall handlers readStr p).proc? =
        some (writeA0 (f p).2 (uint64OfInt (toInt32 (f p).1)))) ∧
    ((f p).1 < 2 ^ 31 → uint64OfInt (toInt32 (f p).1) = (f p).1) := by
  have hk := syscall_eq_known handlers readStr p f hlo hhi hreg
  refine ⟨?_, ?_, ?_⟩
  · rw [hk, dispatchKnown_invoked]
  · intro h
    rcases h with h | h
    · rw [hk, dispatchKnown_no_trace readStr p _ f h]
    · rcases Option.isSome_iff_exists.mp h with ⟨rargs, hr⟩
      by_cases hb : (f p).2.trace_mask.testBit (toInt32 p.trapframe.a7).toNat = true
      · rw [hk, dispatchKnown_trace readStr p _ f rargs hb hr]
      · rw [hk, dispatchKnown_no_trace readStr p _ f (by simpa using hb)]
  · intro h
    exact uint64OfInt_toInt32_of_lt _ h

/-- Witness for C1: a registered identifier (`read` = 5, handler returning
7, tracing off) dispatched concretely via `syscall_registered_dispatch`. -/
theorem syscall_registered_dispatch_witness :
    (syscall whandlers wreadStr (wprocOf (wtf 5) 0)).invoked = [5] ∧
    (syscall whandlers wreadStr (wprocOf (wtf 5) 0)).proc? =
      some (writeA0 (idHandler7 (wprocOf (wtf 5) 0)).2
        (uint64OfInt (toInt32 (idHandler7 (wprocOf (wtf 5) 0)).1))) ∧
    uint64OfInt (toInt32 (idHandler7 (wprocOf (wtf 5) 0)).1) =
      (idHandler7 (wprocOf (wtf 5) 0)).1 := by
  have h := syscall_registered_dispatch whandlers wreadStr (wprocOf (wtf 5) 0) idHandler7
    (by decide) (by decide) rfl
  exact ⟨h.1, h.2.1 (Or.inl (by decide)), h.2.2 (by decide)⟩

/-- Counterexample for C1 as stated: a handler returning the
representable `uint64` value `2 ^ 31` has that value truncated to `int`
and sign-extended, so the return-value slot receives `2 ^ 64 - 2 ^ 31`,
not the handler's value verbatim. -/
theorem syscall_return_truncated_cex :
    ((syscall bigHandlers wreadStr (wprocOf (wtf 1) 0)).proc?.map
        (fun q => q.trapframe.a0)) = some (2 ^ 64 - 2 ^ 31) ∧
      decide (2 ^ 64 - 2 ^ 31 = (2 ^ 31 : Nat)) = false :=
  ⟨rfl, by decide⟩

/-- C2: for every identifier that is ≤ 0, ≥ the table size, or whose slot
is unregistered, one dispatch emits exactly the one diagnostic line
`"<pid> <name>: unknown sys call <identifier>"`, writes exactly `-1`
(as the 64-bit pattern `2 ^ 64 - 1`) into the return-value slot, invokes
no handler, and emits no trace line — the process (hence its trace
bitmask) being arbitrary. -/
theorem syscall_unknown_spec (handlers : Nat → Option Handler)
    (readStr : Nat → Option String) (p : Proc)
    (h : toInt32 p.trapframe.a7 ≤ 0 ∨ NELEM_syscalls ≤ toInt32 p.trapframe.a7 ∨
      handlers (toInt32 p.trapframe.a7).toNat = none) :
    (syscall handlers readStr p).output =
      [OutLine.diag (toString p.pid ++ " " ++ p.name ++ ": unknown sys call " ++
        toString (toInt32 p.trapframe.a7))] ∧
    (syscall handlers readStr p).proc? = some (writeA0 p (uint64OfInt (-1))) ∧
    uint64OfInt (-1) = 2 ^ 64 - 1 ∧
    (syscall handlers readStr p).invoked = [] := by
  rw [syscall_eq_unknown handlers readStr p h]
  exact ⟨rfl, rfl, by decide, rfl⟩

/-- Witness for C2: the spec's end-to-end scenario, identifier 9999 with a
nonzero trace bitmask: one diagnostic line, no handler invoked. -/
theorem syscall_unknown_spec_witness :
    (syscall whandlers wreadStr (wprocOf (wtf 9999) 4242)).output =
      [OutLine.diag "4 sh: unknown sys call 9999"] ∧
    (syscall whandlers wreadStr (wprocOf (wtf 9999) 4242)).invoked = [] := by
  have h := syscall_unknown_spec whandlers wreadStr (wprocOf (wtf 9999) 4242)
    (Or.inr (Or.inl (by decide)))
  exact ⟨by rw [h.1]; decide, h.2.2.2⟩

/-- C7 (amended): for every registered identifier, when the trace bit for
it is set (in the post-handler trace bitmask, which is what the code
reads) and the trace formatter's rendering does not fault, dispatch emits
exactly one trace line `"<pid>: syscall <name>(<args>) -> <result>"` whose
name is `syscall_names[num - 1]`, whose arguments are rendered from the
raw argument words captured at trap entry (`argsList p`, read before the
handler ran), and whose result is the captured return value — the same
value written to the return slot; when the bit is clear, no line is
emitted.  The proviso is forced by the code: when the rendering faults (a
path-string argument whose dereference is invalid, see
`syscall_trace_line_fault_cex`) no trace line is emitted at all even
though the bit is set. -/
theorem syscall_trace_line (handlers : Nat → Option Handler)
    (readStr : Nat → Option String) (p : Proc) (f : Handler)
    (hlo : 0 < toInt32 p.trapframe.a7) (hhi : toInt32 p.trapframe.a7 < NELEM_syscalls)
    (hreg : handlers (toInt32 p.trapframe.a7).toNat = some f) :
    ((f p).2.trace_mask.testBit (toInt32 p.trapframe.a7).toNat = true →
      ∀ rargs, renderArgs (toInt32 p.trapframe.a7).toNat (argsList p) readStr = some rargs →
        (syscall handlers readStr p).output =
          [OutLine.trace (f p).2.pid (syscallName (toInt32 p.trapframe.a7)) rargs
            (toInt32 (f p).1)]) ∧
    ((f p).2.trace_mask.testBit (toInt32 p.trapframe.a7).toNat = false →
      (syscall handlers readStr p).output = []) ∧
    ((f p).2.trace_mask.testBit (toInt32 p.trapframe.a7).toNat = true →
      renderArgs (toInt32 p.trapframe.a7).toNat (argsList p) readStr = none →
      (syscall handlers readStr p).output = [] ∧
        (syscall handlers readStr p).proc? = none) := by
  have hk := syscall_eq_known handlers readStr p f hlo hhi hreg
  refine ⟨?_, ?_, ?_⟩
  · intro hb rargs hr
    rw [hk, dispatchKnown_trace readStr p _ f rargs hb hr]
  · intro hb
    rw [hk, dispatchKnown_no_trace readStr p _ f hb]
  · intro hb hr
    rw [hk, dispatchKnown_fault readStr p _ f hb hr]
    exact ⟨rfl, rfl⟩

/-- Witness for C7: the spec's end-to-end scenario — a registered
3-argument call (`read` = 5) with its trace bit set and a handler
returning 7 emits one line with the pid, the display name "read", the
three rendered argument words, and the result 7. -/
theorem syscall_trace_line_witness :
    (syscall whandlers wreadStr (wprocOf (wtfOf 3 4096 10 5) (2 ^ 5))).output =
      [OutLine.trace 4 "read" [RArg.uint 3, RArg.ptr 4096, RArg.uint 10] 7] := by
  have h := (syscall_trace_line whandlers wreadStr (wprocOf (wtfOf 3 4096 10 5) (2 ^ 5))
      idHandler7 (by decide) (by decide) rfl).1 (by decide)
    [RArg.uint 3, RArg.ptr 4096, RArg.uint 10] (by decide)
  exact h

/-- Counterexample for C7 as stated: a registered identifier (`unlink` =
18) whose trace bit is set emits no trace line at all — the output is
empty, not one line — because the path-string rendering of its invalid
pointer argument faults before the line is completed. -/
theorem syscall_trace_line_fault_cex :
    (whandlers 18).isSome = true ∧
    Nat.testBit (2 ^ 18) 18 = true ∧
    (syscall whandlers wreadStr (wprocOf (wtfOf 4096 0 0 18) (2 ^ 18))).output = [] ∧
    (syscall whandlers wreadStr (wprocOf (wtfOf 4096 0 0 18) (2 ^ 18))).invoked = [18] :=
  ⟨rfl, by decide, rfl, rfl⟩

/-- C9: the dispatcher reads the 64-bit identifier slot truncated to a
signed 32-bit integer before validation: identifiers congruent modulo
`2 ^ 32` yield the same truncated identifier and the same handler
invocations; `a7 = 2 ^ 32 + 1` invokes the handler registered at
identifier 1; and any value whose low 32 bits have the sign bit set is
treated as negative and rejected as unknown. -/
theorem syscall_identifier_mod32 (handlers : Nat → Option Handler)
    (readStr : Nat → Option String) (p : Proc) (x y : Nat)
    (hcong : x % 2 ^ 32 = y % 2 ^ 32) :
    toInt32 x = toInt32 y ∧
    (syscall handlers readStr (setA7 p x)).invoked =
      (syscall handlers readStr (setA7 p y)).invoked ∧
    ((handlers 1).isSome = true →
      (syscall handlers readStr (setA7 p (2 ^ 32 + 1))).invoked = [1]) ∧
    (2 ^ 31 ≤ x % 2 ^ 32 →
      toInt32 x < 0 ∧
      (syscall handlers readStr (setA7 p x)).invoked = [] ∧
      (syscall handlers readStr (setA7 p x)).output =
        [OutLine.diag (toString p.pid ++ " " ++ p.name ++ ": unknown sys call " ++
          toString (toInt32 x))]) := by
  have hx : toInt32 x = toInt32 y := by rw [toInt32, toInt32, hcong]
  refine ⟨hx, ?_, ?_, ?_⟩
  · rw [syscall_invoked, syscall_invoked]
    simp only [setA7]
    rw [hx]
  · intro hf
    rw [syscall_invoked]
    simp only [setA7]
    have h1 : toInt32 (2 ^ 32 + 1) = 1 := by decide
    rw [h1, if_pos ⟨by decide, by decide, hf⟩]
  · intro hneg
    have hlt : x % 2 ^ 32 < 2 ^ 32 := Nat.mod_lt x (by norm_num)
    have hneg' : toInt32 x < 0 := by
      rw [toInt32, if_neg (by omega)]
      have hc : ((x % 2 ^ 32 : Nat) : Int) < 2 ^ 32 := by exact_mod_cast hlt
      omega
    refine ⟨hneg', ?_, ?_⟩
    · rw [syscall_eq_unknown handlers readStr (setA7 p x) (Or.inl (le_of_lt hneg'))]
      rfl
    · rw [syscall_eq_unknown handlers readStr (setA7 p x) (Or.inl (le_of_lt hneg'))]
      rfl

/-- Witness for C9: the congruent pair `2 ^ 31` and `2 ^ 32 + 2 ^ 31`,
whose low 32 bits have the sign bit set: both truncate to the same
negative identifier, and dispatch rejects it without invoking any
handler. -/
theorem syscall_identifier_mod32_witness :
    toInt32 (2 ^ 31) = toInt32 (2 ^ 32 + 2 ^ 31) ∧
    toInt32 (2 ^ 31) < 0 ∧
    (syscall whandlers wreadStr (setA7 (wprocOf (wtf 0) 0) (2 ^ 31))).invoked = [] := by
  have h := syscall_identifier_mod32 whandlers wreadStr (wprocOf (wtf 0) 0)
    (2 ^ 31) (2 ^ 32 + 2 ^ 31) (by decide)
  have h4 := h.2.2.2 (by decide)
  exact ⟨h.1, h4.1, h4.2.1⟩

/-- C10: the dispatch layer itself writes only the return-value slot.  On
the unknown path the final state is exactly the input state with `a0` set
to `-1` — every other trapframe slot and every process field (size bound,
page table, pid, name, trace bitmask) is unchanged — and on the registered
path (when the call completes) the final state is exactly the handler's
output state with only `a0` overwritten, i.e. the dispatcher adds no write
beyond the return-value slot. -/
theorem syscall_frame_effect (handlers : Nat → Option Handler)
    (readStr : Nat → Option String) (p : Proc) :
    ((toInt32 p.trapframe.a7 ≤ 0 ∨ NELEM_syscalls ≤ toInt32 p.trapframe.a7 ∨
        handlers (toInt32 p.trapframe.a7).toNat = none) →
      (syscall handlers readStr p).invoked = [] ∧
      (syscall handlers readStr p).proc? = some (writeA0 p (uint64OfInt (-1))) ∧
      ∀ q, (syscall handlers readStr p).proc? = some q →
        q.trapframe.a1 = p.trapframe.a1 ∧ q.trapframe.a2 = p.trapframe.a2 ∧
        q.trapframe.a3 = p.trapframe.a3 ∧ q.trapframe.a4 = p.trapframe.a4 ∧
        q.trapframe.a5 = p.trapframe.a5 ∧ q.trapframe.a7 = p.trapframe.a7 ∧
        q.sz = p.sz ∧ q.pagetable = p.pagetable ∧ q.pid = p.pid ∧
        q.name = p.name ∧ q.trace_mask = p.trace_mask) ∧
    (∀ f, 0 < toInt32 p.trapframe.a7 → toInt32 p.trapframe.a7 < NELEM_syscalls →
      handlers (toInt32 p.trapframe.a7).toNat = some f →
      ∀ q, (syscall handlers readStr p).proc? = some q →
        q = writeA0 (f p).2 (uint64OfInt (toInt32 (f p).1))) := by
  constructor
  · intro h
    rw [syscall_eq_unknown handlers readStr p h]
    refine ⟨rfl, rfl, ?_⟩
    intro q hq
    have hq' : some (writeA0 p (uint64OfInt (-1))) = some q := hq
    injection hq' with h'
    subst h'
    exact ⟨rfl, rfl, rfl, rfl, rfl, rfl, rfl, rfl, rfl, rfl, rfl⟩
  · intro f hlo hhi hreg q hq
    rw [syscall_eq_known handlers readStr p f hlo hhi hreg] at hq
    by_cases hb : (f p).2.trace_mask.testBit (toInt32 p.trapframe.a7).toNat = true
    · cases hr : renderArgs (toInt32 p.trapframe.a7).toNat (argsList p) readStr with
      | some rargs =>
        rw [dispatchKnown_trace readStr p _ f rargs hb hr] at hq
        have hq' : some (writeA0 (f p).2 (uint64OfInt (toInt32 (f p).1))) = some q := hq
        injection hq' with h'
        exact h'.symm
      | none =>
        rw [dispatchKnown_fault readStr p _ f hb hr] at hq
        exact absurd (show (none : Option Proc) = some q from hq) (by simp)
    · rw [dispatchKnown_no_trace readStr p _ f (by simpa using hb)] at hq
      have hq' : some (writeA0 (f p).2 (uint64OfInt (toInt32 (f p).1))) = some q := hq
      injection hq' with h'
      exact h'.symm

/-- Witness for C10: the unknown path at identifier 9999, leaving
everything but `a0` unchanged, via `syscall_frame_effect`. -/
theorem syscall_frame_effect_witness :
    (syscall whandlers wreadStr (wprocOf (wtf 9999) 0)).invoked = [] ∧
    (syscall whandlers wreadStr (wprocOf (wtf 9999) 0)).proc? =
      some (writeA0 (wprocOf (wtf 9999) 0) (uint64OfInt (-1))) := by
  have h := (syscall_frame_effect whandlers wreadStr (wprocOf (wtf 9999) 0)).1
    (Or.inr (Or.inl (by decide)))
  exact ⟨h.1, h.2.1⟩

/-- C4 (amended): when argument word 0 is zero, the single-pointer
category (`wait`, `pipe`) renders it as the address token `ptr 0` — the
`printf("%p", ...)` path, with no NULL special case — while the literal
"NULL" rendering exists only for `exec`'s two pointer arguments and
`open`'s path argument. -/
theorem renderArgs_pointer_zero (args : List Nat) (readStr : Nat → Option String)
    (h0 : args.getD 0 0 = 0) :
    renderArgs SYS_wait args readStr = some [RArg.ptr 0] ∧
    renderArgs SYS_pipe args readStr = some [RArg.ptr 0] ∧
    renderArgs SYS_open args readStr = some [RArg.nullLit, RArg.uint (args.getD 1 0)] ∧
    renderArgs SYS_exec args readStr =
      some [RArg.nullLit,
        if args.getD 1 0 = 0 then RArg.nullLit else RArg.ptr (args.getD 1 0)] := by
  refine ⟨?_, ?_, ?_, ?_⟩ <;>
    simp [renderArgs, SYS_wait, SYS_pipe, SYS_open, SYS_exec, SYS_exit, SYS_kill,
      SYS_dup, SYS_sbrk, SYS_sleep, SYS_close, SYS_trace, SYS_read, SYS_write,
      SYS_fstat, SYS_chdir, SYS_unlink, SYS_mkdir, SYS_mknod, SYS_link, h0] <;>
    simpa using h0

/-- Witness for C4: concrete argument words with word 0 zero, rendered via
`renderArgs_pointer_zero`. -/
theorem renderArgs_pointer_zero_witness :
    renderArgs SYS_wait [0, 5, 0, 0, 0, 0] wreadStr = some [RArg.ptr 0] ∧
    renderArgs SYS_open [0, 5, 0, 0, 0, 0] wreadStr = some [RArg.nullLit, RArg.uint 5] := by
  have h := renderArgs_pointer_zero [0, 5, 0, 0, 0, 0] wreadStr (by decide)
  exact ⟨h.1, h.2.2.1⟩

/-- Counterexample for C4 as stated: a traced `wait` (identifier 3, trace
bit set) with argument word 0 equal to 0 emits a trace line whose argument
is the address token `ptr 0`, which is not the literal "NULL" token. -/
theorem syscall_wait_null_cex :
    (syscall whandlers wreadStr (wprocOf (wtfOf 0 0 0 3) (2 ^ 3))).output =
      [OutLine.trace 4 "wait" [RArg.ptr 0] 7] ∧
    decide (RArg.ptr 0 = RArg.nullLit) = false :=
  ⟨by decide, by decide⟩

/-- C5, the code evaluated at the failing input: a traced path-string call
(`chdir`, identifier 9, trace bit set) whose path argument cannot be
dereferenced.  The `switch` passes the raw word to `printf("%s", ...)`
unconditionally — `renderArgs` has no fallback branch — so the rendering
faults, no complete line is produced, and the call never completes (the
return-value slot is never written), contradicting the claimed defensive
fallback. -/
theorem syscall_chdir_trace_fault :
    renderArgs SYS_chdir [4096, 0, 0, 0, 0, 0] wreadStr = none ∧
    (syscall whandlers wreadStr (wprocOf (wtfOf 4096 0 0 9) (2 ^ 9))).proc? = none ∧
    (syscall whandlers wreadStr (wprocOf (wtfOf 4096 0 0 9) (2 ^ 9))).output = [] :=
  ⟨rfl, rfl, rfl⟩

end Xv6